import Mathlib

/-!
Verification development for the discrete-hexagon game (src/main.cpp).

The file shallowly embeds the game's core logic: the pattern-file parser
(ReadPatterns), the procedural level generator (the pattern-placement loop of
Restart), the per-step game-state machine (Advance, CheckCollision,
GetIncomingBandType, the keyboard handler of update), and the per-pixel
geometry precomputation (Precompute), the last over real numbers in place of
C doubles.  Machine ints are modelled as Nat/Int (all the quantities involved
stay far below 2^31, and the C++ operators percent and slash on int are
rendered as Int.tmod and Int.tdiv where signs matter).  The process-wide
random generator is modelled as an explicit sequence of raw draws, and file
I/O as an optional token list.
-/

namespace DiscreteHexagon

set_option maxRecDepth 8192

/-! Constants from src/main.cpp lines 35-45 and 103-111. -/

def INNER_SPREAD : ℕ := 32
def BORDER_SIZE : ℕ := 16
def BAND_SIZE : ℕ := 32
def NBANDS : ℕ := 7
def SIZE : ℕ := 2 * INNER_SPREAD + 2 * BORDER_SIZE + 2 * NBANDS * BAND_SIZE
def WIDTH : ℕ := SIZE
def HEIGHT : ℕ := SIZE
def BAND_THICKNESS : ℕ := 16
def INTRO_LEN : ℕ := 4
def LEVEL_LEN : ℕ := 300
def LANES_MIN : ℕ := 3
def LANES_MAX : ℕ := 16
def BAND_TYPE_NONE : ℕ := 0
def BAND_TYPE_WALL : ℕ := 1
def BAND_TYPE_HURDLE : ℕ := 2

/-- A pattern: an ordered list of rows, each row a string of one symbol per
lane (struct Pattern, main.cpp lines 123-126). -/
structure Pattern where
  rows : List String
deriving DecidableEq

/-- The mutable session state: the globals offset, playerLane, playerAlive,
playerHurdling, framesSinceAdvance of main.cpp lines 115-120.  All of them
are C ints / bools; offset, playerLane and framesSinceAdvance only ever hold
non-negative values, so they are modelled as Nat. -/
structure GameState where
  offset : ℕ
  playerLane : ℕ
  playerAlive : Bool
  playerHurdling : Bool
  framesSinceAdvance : ℕ
deriving DecidableEq

/-- The level timeline, int incoming[LANES_MAX][LEVEL_LEN] (main.cpp line
114), modelled as a total function lane -> position -> band type.  The code
only ever reads it through the bounds-guarded GetIncomingBandType. -/
abbrev Timeline := ℕ → ℕ → ℕ

/-! ### Pattern-file parsing (ReadPatterns, main.cpp lines 129-165)

The file is modelled as a list of whitespace-delimited tokens; a token is
either an integer (what fscanf percent-d accepts) or a non-numeric string.
fscanf with percent-s accepts any token, rendering it as its text.  A missing
file is the none case.  Every failAny call in the source maps to a LoadErr
constructor; the read-style failures (fopen failing, or fscanf failing to
produce a token: "could not read number of lanes", "could not read pattern
length", "could not read pattern row") share the readFailure constructor. -/

inductive Tok where
  | int (n : ℤ)
  | str (s : String)
deriving DecidableEq

def Tok.asInt : Tok → Option ℤ
  | .int n => some n
  | .str _ => none

def Tok.asStr : Tok → String
  | .int n => toString n
  | .str s => s

inductive LoadErr where
  | readFailure
  | lanesOutOfBounds
  | rowWidthMismatch
  | emptyCatalog
deriving DecidableEq

/-- The inner row loop of ReadPatterns (main.cpp lines 151-158): read k row
tokens, checking each row's width against the lane count. -/
def readRows (nl : ℕ) : ℕ → List Tok → Except LoadErr (List String × List Tok)
  | 0, toks => .ok ([], toks)
  | _ + 1, [] => .error .readFailure
  | k + 1, t :: rest =>
    let row := t.asStr
    if row.length ≠ nl then .error .rowWidthMismatch
    else
      match readRows nl k rest with
      | .error e => .error e
      | .ok (rs, rem) => .ok (row :: rs, rem)

/-- The outer pattern loop of ReadPatterns (main.cpp lines 140-160).  The C++
loop is unbounded; since every iteration consumes at least one token, fuel
equal to the token count plus one always suffices, and ReadPatterns below
passes exactly that.  A negative pattern length plen is not rejected: the row
loop runs zero times and an empty (zero-row) pattern is stored, exactly as in
the source. -/
def readLoop (nl : ℕ) : ℕ → List Tok → List Pattern → Except LoadErr (List Pattern × List Tok)
  | 0, _, _ => .error .readFailure
  | _ + 1, [], _ => .error .readFailure
  | fuel + 1, t :: rest, acc =>
    match t.asInt with
    | none => .error .readFailure
    | some plen =>
      if plen = 0 then .ok (acc, rest)
      else
        match readRows nl plen.toNat rest with
        | .error e => .error e
        | .ok (rs, rem) => readLoop nl fuel rem (acc ++ [Pattern.mk rs])

/-- ReadPatterns (main.cpp lines 129-165): read the lane count, check it
against [LANES_MIN, LANES_MAX], parse pattern blocks until the 0 sentinel,
and fail if the catalog ends up empty. -/
def ReadPatterns (file : Option (List Tok)) : Except LoadErr (ℕ × List Pattern) :=
  match file with
  | none => .error .readFailure
  | some [] => .error .readFailure
  | some (t :: rest) =>
    match t.asInt with
    | none => .error .readFailure
    | some n =>
      if n < (LANES_MIN : ℤ) ∨ (LANES_MAX : ℤ) < n then .error .lanesOutOfBounds
      else
        match readLoop n.toNat (rest.length + 1) rest [] with
        | .error e => .error e
        | .ok (ps, _) => if ps = [] then .error .emptyCatalog else .ok (n.toNat, ps)

/-! ### Level generation (the pattern-placement loop of Restart,
main.cpp lines 207-236) -/

/-- Point update of the timeline: incoming[d][i] = v. -/
def writeCell (tl : Timeline) (d i v : ℕ) : Timeline :=
  fun d2 p2 => if d2 = d ∧ p2 = i then v else tl d2 p2

/-- The placed lane for pattern column k: (lane0 + dlane * k + nlanes) %
nlanes on C ints (main.cpp line 226); C++ percent is truncated Int.tmod. -/
def laneTarget (nl lane0 : ℕ) (dlane : ℤ) (k : ℕ) : ℕ :=
  (Int.tmod ((lane0 : ℤ) + dlane * (k : ℤ) + (nl : ℤ)) (nl : ℤ)).toNat

/-- One iteration of the inner column loop (main.cpp lines 225-233): write a
wall for a hash symbol, a hurdle for an o, nothing otherwise. -/
def placeStep (nl lane0 : ℕ) (dlane : ℤ) (row : String) (i : ℕ) (tl : Timeline) (k : ℕ) : Timeline :=
  let d := laneTarget nl lane0 dlane k
  let c := row.toList.getD k ' '
  if c = '#' then writeCell tl d i BAND_TYPE_WALL
  else if c = 'o' then writeCell tl d i BAND_TYPE_HURDLE
  else tl

/-- Place one pattern row at position i: the for-k loop of main.cpp lines
225-233. -/
def placeRow (nl lane0 : ℕ) (dlane : ℤ) (row : String) (i : ℕ) (tl : Timeline) : Timeline :=
  (List.range nl).foldl (fun acc k => placeStep nl lane0 dlane row i acc k) tl

/-- Place the rows of a pattern at successive positions starting at i: the
for-row loop of main.cpp lines 224-235 (each row placement is followed by
incrementing i). -/
def placeRows (nl lane0 : ℕ) (dlane : ℤ) : List String → ℕ → Timeline → Timeline
  | [], _, tl => tl
  | row :: rs, i, tl => placeRows nl lane0 dlane rs (i + 1) (placeRow nl lane0 dlane row i tl)

/-- dlane = -1 + 2 * (rng() % 2) (main.cpp line 218). -/
def chooseDlane (r3 : ℕ) : ℤ := -1 + 2 * ((r3 % 2 : ℕ) : ℤ)

/-- The pattern-placement loop of Restart (main.cpp lines 213-236), run over
an explicit finite sequence of raw random draws (r1, r2, r3) standing for the
three rng() calls of one iteration; the loop also stops if the sequence is
exhausted.  Each iteration picks pattern r1 % patterns.size() with starting
lane r2 % nlanes and direction -1 + 2 * (r3 % 2), breaks when
i + p.rows.size() >= LEVEL_LEN, and otherwise stamps the pattern and advances
i by its row count.  Returns the timeline together with the final position
counter i. -/
def genLoop (nl : ℕ) (cat : List Pattern) : List (ℕ × ℕ × ℕ) → ℕ → Timeline → Timeline × ℕ
  | [], i, tl => (tl, i)
  | (r1, r2, r3) :: rest, i, tl =>
    if LEVEL_LEN ≤ i + (cat.getD (r1 % cat.length) (Pattern.mk [])).rows.length then (tl, i)
    else genLoop nl cat rest (i + (cat.getD (r1 % cat.length) (Pattern.mk [])).rows.length)
      (placeRows nl (r2 % nl) (chooseDlane r3)
        (cat.getD (r1 % cat.length) (Pattern.mk [])).rows i tl)

/-- The same placement loop over an infinite draw stream, with explicit fuel:
genRun nl cat f fuel cidx i tl runs up to fuel iterations reading draws
f cidx, f (cidx+1), ...; none means the loop did not reach its break
condition within fuel iterations.  This is the faithful model of the
unbounded C++ while loop, used to settle termination. -/
def genRun (nl : ℕ) (cat : List Pattern) (f : ℕ → ℕ × ℕ × ℕ) :
    ℕ → ℕ → ℕ → Timeline → Option (Timeline × ℕ)
  | 0, _, _, _ => none
  | fuel + 1, cidx, i, tl =>
    if LEVEL_LEN ≤ i + (cat.getD ((f cidx).1 % cat.length) (Pattern.mk [])).rows.length then
      some (tl, i)
    else genRun nl cat f fuel (cidx + 1)
      (i + (cat.getD ((f cidx).1 % cat.length) (Pattern.mk [])).rows.length)
      (placeRows nl ((f cidx).2.1 % nl) (chooseDlane (f cidx).2.2)
        (cat.getD ((f cidx).1 % cat.length) (Pattern.mk [])).rows i tl)

/-- The all-None timeline that Restart builds before placing patterns
(main.cpp lines 207-211). -/
def initialTimeline : Timeline := fun _ _ => BAND_TYPE_NONE

/-- Restart (main.cpp lines 202-245) after its ReadPatterns and Precompute
calls: the lane count and parsed catalog, and the random draws consumed by
the placement loop, are passed in explicitly.  It rebuilds the timeline from
all-None starting at position INTRO_LEN and resets the session state:
offset = 0, playerLane = 0, playerAlive = true, playerHurdling = false,
framesSinceAdvance = 999 (the "anything big is fine" sentinel). -/
def Restart (nl : ℕ) (cat : List Pattern) (choices : List (ℕ × ℕ × ℕ)) :
    Timeline × GameState :=
  ((genLoop nl cat choices INTRO_LEN initialTimeline).1,
   { offset := 0, playerLane := 0, playerAlive := true, playerHurdling := false,
     framesSinceAdvance := 999 })

/-! ### Game-state machine (main.cpp lines 247-280 and 316-353) -/

/-- GetIncomingBandType (main.cpp lines 247-252): bandNum += offset; out of
[0, LEVEL_LEN) means BAND_TYPE_NONE, otherwise read the timeline. -/
def GetIncomingBandType (incoming : Timeline) (offset : ℕ) (lane : ℕ) (bandNum : ℤ) : ℕ :=
  let b := bandNum + (offset : ℤ)
  if b < 0 ∨ (LEVEL_LEN : ℤ) ≤ b then BAND_TYPE_NONE else incoming lane b.toNat

/-- CheckCollision (main.cpp lines 264-272): look up the band type at the
player's lane and band 0, and clear playerAlive on wall, on un-hurdled
hurdle, or on hurdling over nothing. -/
def CheckCollision (incoming : Timeline) (s : GameState) : GameState :=
  let t := GetIncomingBandType incoming s.offset s.playerLane 0
  if t = BAND_TYPE_WALL ∨ (t = BAND_TYPE_HURDLE ∧ s.playerHurdling = false)
      ∨ (t = BAND_TYPE_NONE ∧ s.playerHurdling = true) then
    { s with playerAlive := false }
  else s

/-- Advance (main.cpp lines 274-280): framesSinceAdvance = 0; ++offset;
CheckCollision(); playerHurdling = false — in that order. -/
def Advance (incoming : Timeline) (s : GameState) : GameState :=
  let s1 := { s with framesSinceAdvance := 0 }
  let s2 := { s1 with offset := s1.offset + 1 }
  let s3 := CheckCollision incoming s2
  { s3 with playerHurdling := false }

/-- The keydown events the game reacts to (main.cpp lines 324-349); each of
the four actions stands for its pair of keys, and other covers every other
key. -/
inductive KeyEvent where
  | backspace
  | left
  | right
  | up
  | down
  | other
deriving DecidableEq

/-- The keydown handling of update (main.cpp lines 324-349).  Backspace
restarts unconditionally (the fresh lane count, catalog and draws of the
restart are passed in).  The four action keys only do anything while
playerAlive: left rotates the lane by +1 mod nlanes, right by
nlanes - 1 mod nlanes, up steps, down sets playerHurdling before advancing;
each then calls Advance. -/
def handleKey (nl : ℕ) (cat : List Pattern) (choices : List (ℕ × ℕ × ℕ))
    (incoming : Timeline) (s : GameState) : KeyEvent → Timeline × GameState
  | .backspace => Restart nl cat choices
  | .left =>
    if s.playerAlive then
      (incoming, Advance incoming { s with playerLane := (s.playerLane + 1) % nl })
    else (incoming, s)
  | .right =>
    if s.playerAlive then
      (incoming, Advance incoming { s with playerLane := (s.playerLane + nl - 1) % nl })
    else (incoming, s)
  | .up =>
    if s.playerAlive then (incoming, Advance incoming s) else (incoming, s)
  | .down =>
    if s.playerAlive then
      (incoming, Advance incoming { s with playerHurdling := true })
    else (incoming, s)
  | .other => (incoming, s)

/-! ### Per-pixel geometry (Precompute, main.cpp lines 171-200)

The C doubles and the math-library atan2, sin, cos are modelled over the real
numbers; the C cast static_cast to int is truncation toward zero, modelled by
cint below.  C atan2's range [-pi, pi] matches the complex argument on reals
(the signed-zero corner atan2(-0.0, x) does not exist over the reals). -/

def INNER_BORDER : ℕ := INNER_SPREAD + BORDER_SIZE

noncomputable section

/-- C atan2(y, x): the angle of the point (x, y), as the complex argument. -/
def atan2 (y x : ℝ) : ℝ := Complex.arg ⟨x, y⟩

/-- static_cast to int from double: truncation toward zero. -/
def cint (r : ℝ) : ℤ := if 0 ≤ r then ⌊r⌋ else ⌈r⌉

/-- dx = x - (WIDTH - 1) / 2.0 (main.cpp line 175). -/
def dxAt (x : ℕ) : ℝ := (x : ℝ) - ((WIDTH : ℝ) - 1) / 2

/-- dy = y - (HEIGHT - 1) / 2.0 (main.cpp line 176). -/
def dyAt (y : ℕ) : ℝ := (y : ℝ) - ((HEIGHT : ℝ) - 1) / 2

/-- theta = atan2(dx, dy) + M_PI (main.cpp line 179). -/
def thetaAt (dx dy : ℝ) : ℝ := atan2 dx dy + Real.pi

/-- wedge = (int)(theta / (M_PI / nlanes)) (main.cpp line 180). -/
def wedgeAt (nl : ℕ) (dx dy : ℝ) : ℤ := cint (thetaAt dx dy / (Real.pi / (nl : ℝ)))

/-- lane = ((wedge + 1) % (2 * nlanes)) / 2 on C ints (main.cpp line 181):
truncated remainder and truncated division. -/
def laneAt (nl : ℕ) (dx dy : ℝ) : ℤ :=
  Int.tdiv (Int.tmod (wedgeAt nl dx dy + 1) (2 * (nl : ℤ))) 2

/-- rho = lane * (2.0 * M_PI / nlanes) (main.cpp line 184). -/
def rhoAt (nl : ℕ) (dx dy : ℝ) : ℝ := (laneAt nl dx dy : ℝ) * (2 * Real.pi / (nl : ℝ))

/-- dist = laneDX * dx + laneDY * dy with laneDX = -sin(rho), laneDY =
-cos(rho) (main.cpp lines 185-189): the signed projection of the pixel
displacement onto the lane's outward axis. -/
def distAt (nl : ℕ) (dx dy : ℝ) : ℝ :=
  (-Real.sin (rhoAt nl dx dy)) * dx + (-Real.cos (rhoAt nl dx dy)) * dy

/-- bandNum (main.cpp lines 192-197): 0 below the inner border, else the
truncated quotient of the distance past the border by the band size. -/
def bandNumAt (nl : ℕ) (dx dy : ℝ) : ℤ :=
  if (INNER_BORDER : ℝ) ≤ distAt nl dx dy then
    cint ((distAt nl dx dy - (INNER_BORDER : ℝ)) / (BAND_SIZE : ℝ))
  else 0

/-- The lane index exactly as the spec words it: ((floor(theta / (pi /
nlanes)) + 1) mod 2*nlanes) / 2 with mathematical floor, mod (Int.emod) and
integer division (Int.ediv), to be compared with laneAt taken from the
source. -/
def laneSpec (nl : ℕ) (dx dy : ℝ) : ℤ :=
  ((⌊(atan2 dx dy + Real.pi) / (Real.pi / (nl : ℝ))⌋ + 1) % (2 * (nl : ℤ))) / 2

/-- The band index exactly as the spec words it: 0 when the distance is
below innerSpread + borderSize, else the mathematical floor of (distance -
innerSpread - borderSize) / bandSize. -/
def bandNumSpec (nl : ℕ) (dx dy : ℝ) : ℤ :=
  if distAt nl dx dy < (INNER_BORDER : ℝ) then 0
  else ⌊(distAt nl dx dy - (INNER_BORDER : ℝ)) / (BAND_SIZE : ℝ)⌋

end

/-! ### Geometry lemmas -/

lemma thetaAt_pos (dx dy : ℝ) : 0 < thetaAt dx dy := by
  have h := Complex.neg_pi_lt_arg ⟨dy, dx⟩
  unfold thetaAt atan2
  linarith

lemma wedgeAt_eq_floor (nl : ℕ) (hnl : 0 < nl) (dx dy : ℝ) :
    wedgeAt nl dx dy = ⌊thetaAt dx dy / (Real.pi / (nl : ℝ))⌋ ∧ 0 ≤ wedgeAt nl dx dy := by
  have hpi : 0 < Real.pi / (nl : ℝ) := div_pos Real.pi_pos (by exact_mod_cast hnl)
  have hq : 0 < thetaAt dx dy / (Real.pi / (nl : ℝ)) := div_pos (thetaAt_pos dx dy) hpi
  have heq : wedgeAt nl dx dy = ⌊thetaAt dx dy / (Real.pi / (nl : ℝ))⌋ := by
    unfold wedgeAt cint
    rw [if_pos (le_of_lt hq)]
  exact ⟨heq, heq ▸ Int.floor_nonneg.mpr (le_of_lt hq)⟩

/-- The lane computed with C truncated division and remainder agrees with the
spec's floor-mod-div formula and lies in [0, nlanes). -/
lemma laneAt_spec (nl : ℕ) (hnl : 0 < nl) (dx dy : ℝ) :
    laneAt nl dx dy = laneSpec nl dx dy ∧
    0 ≤ laneAt nl dx dy ∧ laneAt nl dx dy < (nl : ℤ) := by
  obtain ⟨hw, hw0⟩ := wedgeAt_eq_floor nl hnl dx dy
  have hnlz : (0 : ℤ) < (nl : ℤ) := by exact_mod_cast hnl
  have hwp : 0 ≤ wedgeAt nl dx dy + 1 := by omega
  have htm : Int.tmod (wedgeAt nl dx dy + 1) (2 * (nl : ℤ))
      = (wedgeAt nl dx dy + 1) % (2 * (nl : ℤ)) :=
    Int.tmod_eq_emod hwp (by omega)
  have hm0 : 0 ≤ (wedgeAt nl dx dy + 1) % (2 * (nl : ℤ)) := Int.emod_nonneg _ (by omega)
  have hmlt : (wedgeAt nl dx dy + 1) % (2 * (nl : ℤ)) < 2 * (nl : ℤ) :=
    Int.emod_lt_of_pos _ (by omega)
  have htd : Int.tdiv ((wedgeAt nl dx dy + 1) % (2 * (nl : ℤ))) 2
      = ((wedgeAt nl dx dy + 1) % (2 * (nl : ℤ))) / 2 :=
    Int.tdiv_eq_ediv hm0 (by omega)
  refine ⟨?_, ?_, ?_⟩
  · unfold laneAt laneSpec
    rw [htm, htd, hw]
    unfold thetaAt
    rfl
  · unfold laneAt
    rw [htm, htd]
    exact Int.ediv_nonneg hm0 (by omega)
  · unfold laneAt
    rw [htm, htd]
    rw [Int.ediv_lt_iff_lt_mul (by omega : (0 : ℤ) < 2)]
    omega

/-- The band index agrees with the spec's guarded floor formula and is never
negative. -/
lemma bandNumAt_spec (nl : ℕ) (dx dy : ℝ) :
    bandNumAt nl dx dy = bandNumSpec nl dx dy ∧ 0 ≤ bandNumAt nl dx dy := by
  unfold bandNumAt bandNumSpec
  by_cases h : (INNER_BORDER : ℝ) ≤ distAt nl dx dy
  · rw [if_pos h, if_neg (not_lt.mpr h)]
    have hq : 0 ≤ (distAt nl dx dy - (INNER_BORDER : ℝ)) / (BAND_SIZE : ℝ) :=
      div_nonneg (by linarith) (Nat.cast_nonneg BAND_SIZE)
    unfold cint
    rw [if_pos hq]
    exact ⟨rfl, Int.floor_nonneg.mpr hq⟩
  · rw [if_neg h, if_pos (not_le.mp h)]
    exact ⟨rfl, le_refl 0⟩

/-! ### Helper lemmas -/

/-- Normal form of Advance: offset is incremented, the collision condition is
evaluated at the incremented offset and the pre-advance lane and hurdling
flag, and playerHurdling ends cleared with the animation timer at 0. -/
lemma Advance_eq (incoming : Timeline) (s : GameState) :
    Advance incoming s =
      { offset := s.offset + 1, playerLane := s.playerLane,
        playerAlive :=
          if GetIncomingBandType incoming (s.offset + 1) s.playerLane 0 = BAND_TYPE_WALL ∨
              (GetIncomingBandType incoming (s.offset + 1) s.playerLane 0 = BAND_TYPE_HURDLE ∧
                s.playerHurdling = false) ∨
              (GetIncomingBandType incoming (s.offset + 1) s.playerLane 0 = BAND_TYPE_NONE ∧
                s.playerHurdling = true)
          then false else s.playerAlive,
        playerHurdling := false, framesSinceAdvance := 0 } := by
  unfold Advance CheckCollision
  dsimp only
  split <;> rfl

/-- A concrete live session state used by the witnesses below. -/
def s0 : GameState :=
  { offset := 0, playerLane := 0, playerAlive := true, playerHurdling := false,
    framesSinceAdvance := 999 }

/-! ### Claims -/

/-- Claim C1: after an advance from a live state, with t the band type at the
player's lane and the updated timeline position offset, the collision check
clears playerAlive iff t is a wall, or t is a hurdle and hurdling was not
requested on this advance, or t is none and hurdling was requested; in the
other combinations (hurdle with hurdling, none without hurdling) the player
stays alive. -/
theorem advance_collision_iff (incoming : Timeline) (s : GameState)
    (h : s.playerAlive = true) :
    ((Advance incoming s).playerAlive = false ↔
      (GetIncomingBandType incoming (s.offset + 1) s.playerLane 0 = BAND_TYPE_WALL ∨
        (GetIncomingBandType incoming (s.offset + 1) s.playerLane 0 = BAND_TYPE_HURDLE ∧
          s.playerHurdling = false) ∨
        (GetIncomingBandType incoming (s.offset + 1) s.playerLane 0 = BAND_TYPE_NONE ∧
          s.playerHurdling = true))) ∧
    (((GetIncomingBandType incoming (s.offset + 1) s.playerLane 0 = BAND_TYPE_HURDLE ∧
        s.playerHurdling = true) ∨
      (GetIncomingBandType incoming (s.offset + 1) s.playerLane 0 = BAND_TYPE_NONE ∧
        s.playerHurdling = false)) →
      (Advance incoming s).playerAlive = true) := by
  rw [Advance_eq]
  dsimp only
  constructor
  · by_cases hc :
      GetIncomingBandType incoming (s.offset + 1) s.playerLane 0 = BAND_TYPE_WALL ∨
        (GetIncomingBandType incoming (s.offset + 1) s.playerLane 0 = BAND_TYPE_HURDLE ∧
          s.playerHurdling = false) ∨
        (GetIncomingBandType incoming (s.offset + 1) s.playerLane 0 = BAND_TYPE_NONE ∧
          s.playerHurdling = true)
    · simp [hc]
    · simp [hc, h]
  · intro hd
    have hc :
        ¬(GetIncomingBandType incoming (s.offset + 1) s.playerLane 0 = BAND_TYPE_WALL ∨
          (GetIncomingBandType incoming (s.offset + 1) s.playerLane 0 = BAND_TYPE_HURDLE ∧
            s.playerHurdling = false) ∨
          (GetIncomingBandType incoming (s.offset + 1) s.playerLane 0 = BAND_TYPE_NONE ∧
            s.playerHurdling = true)) := by
      rcases hd with ⟨h1, h2⟩ | ⟨h1, h2⟩ <;>
        simp [h1, h2, BAND_TYPE_NONE, BAND_TYPE_WALL, BAND_TYPE_HURDLE]
    simp [hc, h]

/-- Witness for C1 at the concrete state s0 over the all-None timeline. -/
theorem advance_collision_iff_witness :
    s0.playerAlive = true ∧
    (((Advance initialTimeline s0).playerAlive = false) ↔
      (GetIncomingBandType initialTimeline (s0.offset + 1) s0.playerLane 0 = BAND_TYPE_WALL ∨
        (GetIncomingBandType initialTimeline (s0.offset + 1) s0.playerLane 0 = BAND_TYPE_HURDLE ∧
          s0.playerHurdling = false) ∨
        (GetIncomingBandType initialTimeline (s0.offset + 1) s0.playerLane 0 = BAND_TYPE_NONE ∧
          s0.playerHurdling = true))) ∧
    (((GetIncomingBandType initialTimeline (s0.offset + 1) s0.playerLane 0 = BAND_TYPE_HURDLE ∧
        s0.playerHurdling = true) ∨
      (GetIncomingBandType initialTimeline (s0.offset + 1) s0.playerLane 0 = BAND_TYPE_NONE ∧
        s0.playerHurdling = false)) →
      (Advance initialTimeline s0).playerAlive = true) :=
  ⟨by decide, (advance_collision_iff initialTimeline s0 (by decide)).1,
    (advance_collision_iff initialTimeline s0 (by decide)).2⟩

/-- Claim C2: while dead, the four player actions change nothing; while
alive, rotating left adds 1 mod nlanes to the lane and rotating right adds
nlanes - 1 mod nlanes before the collision check, stepping keeps the lane,
and hurdling raises playerHurdling before the collision check; and every
advance increments offset, evaluates the collision at the updated lane and
offset using the hurdling flag as it was during the advance, and finally
clears playerHurdling. -/
theorem player_action_effects (nl : ℕ) (cat : List Pattern)
    (choices : List (ℕ × ℕ × ℕ)) (incoming : Timeline) (s : GameState) :
    (s.playerAlive = false →
      handleKey nl cat choices incoming s .left = (incoming, s) ∧
      handleKey nl cat choices incoming s .right = (incoming, s) ∧
      handleKey nl cat choices incoming s .up = (incoming, s) ∧
      handleKey nl cat choices incoming s .down = (incoming, s)) ∧
    (s.playerAlive = true →
      handleKey nl cat choices incoming s .left =
        (incoming, Advance incoming { s with playerLane := (s.playerLane + 1) % nl }) ∧
      handleKey nl cat choices incoming s .right =
        (incoming, Advance incoming { s with playerLane := (s.playerLane + nl - 1) % nl }) ∧
      handleKey nl cat choices incoming s .up = (incoming, Advance incoming s) ∧
      handleKey nl cat choices incoming s .down =
        (incoming, Advance incoming { s with playerHurdling := true })) ∧
    (∀ s2 : GameState, Advance incoming s2 =
      { offset := s2.offset + 1, playerLane := s2.playerLane,
        playerAlive :=
          if GetIncomingBandType incoming (s2.offset + 1) s2.playerLane 0 = BAND_TYPE_WALL ∨
              (GetIncomingBandType incoming (s2.offset + 1) s2.playerLane 0 = BAND_TYPE_HURDLE ∧
                s2.playerHurdling = false) ∨
              (GetIncomingBandType incoming (s2.offset + 1) s2.playerLane 0 = BAND_TYPE_NONE ∧
                s2.playerHurdling = true)
          then false else s2.playerAlive,
        playerHurdling := false, framesSinceAdvance := 0 }) := by
  refine ⟨fun hd => ?_, fun ha => ?_, fun s2 => Advance_eq incoming s2⟩
  · simp [handleKey, hd]
  · simp [handleKey, ha]

/-- Witness for C2: the hurdle action from the live state s0. -/
theorem player_action_effects_witness :
    s0.playerAlive = true ∧
    handleKey 6 [] [] initialTimeline s0 .down =
      (initialTimeline, Advance initialTimeline { s0 with playerHurdling := true }) :=
  ⟨by decide, ((player_action_effects 6 [] [] initialTimeline s0).2.1 (by decide)).2.2.2⟩

/-- Claim C3: restarting (always possible, the backspace branch of update is
outside the playerAlive guard) leaves offset = 0, playerLane = 0,
playerAlive = true and playerHurdling = false whatever the prior state,
including any dead state. -/
theorem restart_resets_state (nl : ℕ) (cat : List Pattern)
    (choices : List (ℕ × ℕ × ℕ)) (incoming : Timeline) (s : GameState) :
    (handleKey nl cat choices incoming s .backspace).2.offset = 0 ∧
    (handleKey nl cat choices incoming s .backspace).2.playerLane = 0 ∧
    (handleKey nl cat choices incoming s .backspace).2.playerAlive = true ∧
    (handleKey nl cat choices incoming s .backspace).2.playerHurdling = false :=
  ⟨rfl, rfl, rfl, rfl⟩

/-- Claim C7 counterexample: one Advance from the concrete state s0 leaves
framesSinceAdvance at 0, not at the large sentinel 999 that Restart uses, so
the animation timer is not reset to a large sentinel on an advance. -/
theorem advance_timer_not_sentinel :
    (Advance initialTimeline s0).framesSinceAdvance = 0 ∧
    (Advance initialTimeline s0).framesSinceAdvance ≠ 999 := by
  constructor <;> decide

/-- Claim C7 as amended: every Advance resets framesSinceAdvance to 0 (so
the slide-in animation replays from the start); the large sentinel 999 is
what Restart sets, suppressing the animation after a restart. -/
theorem advance_resets_timer_to_zero :
    (∀ (incoming : Timeline) (s : GameState),
      (Advance incoming s).framesSinceAdvance = 0) ∧
    (∀ (nl : ℕ) (cat : List Pattern) (choices : List (ℕ × ℕ × ℕ)),
      (Restart nl cat choices).2.framesSinceAdvance = 999) := by
  refine ⟨fun incoming s => ?_, fun nl cat choices => rfl⟩
  rw [Advance_eq]

/-- Claim C9: GetIncomingBandType returns BAND_TYPE_NONE whenever the
shifted index bandNum + offset falls outside [0, LEVEL_LEN); consequently,
once offset has reached LEVEL_LEN, an advance without hurdling never kills a
live player and an advance with hurdling always does. -/
theorem get_incoming_band_type_total :
    (∀ (incoming : Timeline) (offset lane : ℕ) (bandNum : ℤ),
      bandNum + (offset : ℤ) < 0 ∨ (LEVEL_LEN : ℤ) ≤ bandNum + (offset : ℤ) →
      GetIncomingBandType incoming offset lane bandNum = BAND_TYPE_NONE) ∧
    (∀ (incoming : Timeline) (s : GameState), s.playerAlive = true →
      LEVEL_LEN ≤ s.offset →
      (s.playerHurdling = false → (Advance incoming s).playerAlive = true) ∧
      (s.playerHurdling = true → (Advance incoming s).playerAlive = false)) := by
  have hout : ∀ (incoming : Timeline) (offset lane : ℕ) (bandNum : ℤ),
      bandNum + (offset : ℤ) < 0 ∨ (LEVEL_LEN : ℤ) ≤ bandNum + (offset : ℤ) →
      GetIncomingBandType incoming offset lane bandNum = BAND_TYPE_NONE := by
    intro incoming offset lane bandNum h
    unfold GetIncomingBandType
    exact if_pos h
  refine ⟨hout, fun incoming s ha hoff => ?_⟩
  have hnone : GetIncomingBandType incoming (s.offset + 1) s.playerLane 0 = BAND_TYPE_NONE := by
    refine hout incoming (s.offset + 1) s.playerLane 0 (Or.inr ?_)
    push_cast
    omega
  rw [Advance_eq]
  dsimp only
  constructor
  · intro hh
    simp [hnone, hh, ha, BAND_TYPE_NONE, BAND_TYPE_WALL, BAND_TYPE_HURDLE]
  · intro hh
    simp [hnone, hh, BAND_TYPE_NONE, BAND_TYPE_WALL, BAND_TYPE_HURDLE]

/-- A concrete state whose offset has reached the end of the level, used by
the witness for C9. -/
def s9 : GameState :=
  { offset := 300, playerLane := 0, playerAlive := true, playerHurdling := true,
    framesSinceAdvance := 0 }

/-- Witness for C9: an out-of-range lookup at a concrete negative band, and a
hurdling advance at the concrete end-of-level state s9. -/
theorem get_incoming_band_type_total_witness :
    ((-301 : ℤ) + ((0 : ℕ) : ℤ) < 0 ∨ (LEVEL_LEN : ℤ) ≤ (-301 : ℤ) + ((0 : ℕ) : ℤ)) ∧
    GetIncomingBandType initialTimeline 0 0 (-301) = BAND_TYPE_NONE ∧
    (s9.playerAlive = true ∧ LEVEL_LEN ≤ s9.offset ∧ s9.playerHurdling = true) ∧
    (Advance initialTimeline s9).playerAlive = false :=
  ⟨by decide, get_incoming_band_type_total.1 initialTimeline 0 0 (-301) (by decide),
    ⟨by decide, by decide, by decide⟩,
    (get_incoming_band_type_total.2 initialTimeline s9 (by decide) (by decide)).2 (by decide)⟩

/-! ### Placement frame lemmas: a pattern write at position i never touches
any other position. -/

lemma placeStep_frame (nl lane0 : ℕ) (dlane : ℤ) (row : String) (i : ℕ)
    (tl : Timeline) (k lane pos : ℕ) (h : pos ≠ i) :
    placeStep nl lane0 dlane row i tl k lane pos = tl lane pos := by
  unfold placeStep
  by_cases h1 : row.toList.getD k ' ' = '#'
  · rw [if_pos h1]
    simp [writeCell, h]
  · rw [if_neg h1]
    by_cases h2 : row.toList.getD k ' ' = 'o'
    · rw [if_pos h2]
      simp [writeCell, h]
    · rw [if_neg h2]

lemma placeRow_frame (nl lane0 : ℕ) (dlane : ℤ) (row : String) (i : ℕ)
    (tl : Timeline) (lane pos : ℕ) (h : pos ≠ i) :
    placeRow nl lane0 dlane row i tl lane pos = tl lane pos := by
  unfold placeRow
  generalize List.range nl = l
  induction l generalizing tl with
  | nil => rfl
  | cons a as ih =>
    rw [List.foldl_cons, ih (placeStep nl lane0 dlane row i tl a)]
    exact placeStep_frame nl lane0 dlane row i tl a lane pos h

lemma placeRows_frame (nl lane0 : ℕ) (dlane : ℤ) :
    ∀ (rows : List String) (i : ℕ) (tl : Timeline) (lane pos : ℕ),
      pos < i ∨ i + rows.length ≤ pos →
      placeRows nl lane0 dlane rows i tl lane pos = tl lane pos := by
  intro rows
  induction rows with
  | nil => intro i tl lane pos _; rfl
  | cons row rs ih =>
    intro i tl lane pos h
    have hlen : (row :: rs).length = rs.length + 1 := rfl
    rw [hlen] at h
    show placeRows nl lane0 dlane rs (i + 1) (placeRow nl lane0 dlane row i tl) lane pos
        = tl lane pos
    rw [ih (i + 1) (placeRow nl lane0 dlane row i tl) lane pos (by omega)]
    exact placeRow_frame nl lane0 dlane row i tl lane pos (by omega)

/-! ### Generation loop lemmas -/

/-- The position counter never decreases across the placement loop. -/
lemma genLoop_le (nl : ℕ) (cat : List Pattern) :
    ∀ (choices : List (ℕ × ℕ × ℕ)) (i : ℕ) (tl : Timeline),
      i ≤ (genLoop nl cat choices i tl).2 := by
  intro choices
  induction choices with
  | nil => intro i tl; exact le_refl i
  | cons c rest ih =>
    intro i tl
    obtain ⟨r1, r2, r3⟩ := c
    unfold genLoop
    split
    · exact le_refl i
    · exact le_trans (Nat.le_add_right i _) (ih _ _)

/-- Starting strictly below LEVEL_LEN, the final position counter stays
strictly below LEVEL_LEN: the loop breaks before any pattern could end at or
past the level end. -/
lemma genLoop_lt_level (nl : ℕ) (cat : List Pattern) :
    ∀ (choices : List (ℕ × ℕ × ℕ)) (i : ℕ) (tl : Timeline),
      i < LEVEL_LEN → (genLoop nl cat choices i tl).2 < LEVEL_LEN := by
  intro choices
  induction choices with
  | nil => intro i tl h; exact h
  | cons c rest ih =>
    intro i tl h
    obtain ⟨r1, r2, r3⟩ := c
    unfold genLoop
    split
    · exact h
    · next hcond => exact ih _ _ (by omega)

/-- Positions below the starting counter or at or past the final counter are
never written by the placement loop. -/
lemma genLoop_frame (nl : ℕ) (cat : List Pattern) :
    ∀ (choices : List (ℕ × ℕ × ℕ)) (i : ℕ) (tl : Timeline) (lane pos : ℕ),
      pos < i ∨ (genLoop nl cat choices i tl).2 ≤ pos →
      (genLoop nl cat choices i tl).1 lane pos = tl lane pos := by
  intro choices
  induction choices with
  | nil => intro i tl lane pos _; rfl
  | cons c rest ih =>
    intro i tl lane pos
    obtain ⟨r1, r2, r3⟩ := c
    unfold genLoop
    split
    · intro _; rfl
    · next hcond =>
      intro h
      rcases h with h | h
      · rw [ih _ _ lane pos (Or.inl (by omega))]
        exact placeRows_frame nl _ _ _ i tl lane pos (Or.inl h)
      · have hle := genLoop_le nl cat rest
          (i + (cat.getD (r1 % cat.length) (Pattern.mk [])).rows.length)
          (placeRows nl (r2 % nl) (chooseDlane r3)
            (cat.getD (r1 % cat.length) (Pattern.mk [])).rows i tl)
        rw [ih _ _ lane pos (Or.inr h)]
        exact placeRows_frame nl _ _ _ i tl lane pos (Or.inr (by omega))

/-- Every terminating run of the unbounded loop is reproduced by the
finite-draw-list loop on the draws it actually consumed. -/
lemma genRun_eq_genLoop (nl : ℕ) (cat : List Pattern) (f : ℕ → ℕ × ℕ × ℕ) :
    ∀ (fuel cidx i : ℕ) (tl : Timeline) (out : Timeline × ℕ),
      genRun nl cat f fuel cidx i tl = some out →
      ∃ choices : List (ℕ × ℕ × ℕ), genLoop nl cat choices i tl = out := by
  intro fuel
  induction fuel with
  | zero => intro cidx i tl out h; exact absurd h (by simp [genRun])
  | succ fuel ih =>
    intro cidx i tl out h
    unfold genRun at h
    split at h
    · exact ⟨[], by cases h; rfl⟩
    · next hcond =>
      obtain ⟨choices, hch⟩ := ih (cidx + 1) _ _ out h
      refine ⟨((f cidx).1, (f cidx).2.1, (f cidx).2.2) :: choices, ?_⟩
      unfold genLoop
      rw [if_neg hcond]
      exact hch

/-- With a non-empty catalog of patterns that all have at least one row,
each loop iteration strictly increases the position counter, so LEVEL_LEN + 1
iterations always suffice to reach the break. -/
lemma genRun_isSome (nl : ℕ) (cat : List Pattern) (f : ℕ → ℕ × ℕ × ℕ)
    (hcat : cat ≠ []) (hrows : ∀ p ∈ cat, p.rows ≠ []) :
    ∀ (fuel cidx i : ℕ) (tl : Timeline), 0 < fuel → LEVEL_LEN < i + fuel →
      (genRun nl cat f fuel cidx i tl).isSome = true := by
  intro fuel
  induction fuel with
  | zero => intro cidx i tl h0 _; exact absurd h0 (lt_irrefl 0)
  | succ fuel ih =>
    intro cidx i tl _ hlt
    unfold genRun
    split
    · rfl
    · next hcond =>
      have hidx : (f cidx).1 % cat.length < cat.length :=
        Nat.mod_lt _ (List.length_pos.mpr hcat)
      have hmem : cat.getD ((f cidx).1 % cat.length) (Pattern.mk []) ∈ cat := by
        rw [List.getD_eq_getElem?_getD, List.getElem?_eq_getElem hidx, Option.getD_some]
        exact List.getElem_mem hidx
      have hlen : 1 ≤ (cat.getD ((f cidx).1 % cat.length) (Pattern.mk [])).rows.length :=
        List.length_pos.mpr (hrows _ hmem)
      exact ih (cidx + 1) _ _ (by omega) (by omega)

/-- With the catalog holding only a zero-row pattern and the counter still
short of LEVEL_LEN, the loop never reaches its break: no fuel suffices. -/
lemma genRun_empty_rows_none (nl : ℕ) (f : ℕ → ℕ × ℕ × ℕ) :
    ∀ (fuel cidx i : ℕ) (tl : Timeline), i < LEVEL_LEN →
      genRun nl [Pattern.mk []] f fuel cidx i tl = none := by
  intro fuel
  induction fuel with
  | zero => intro cidx i tl _; rfl
  | succ fuel ih =>
    intro cidx i tl hi
    have hp : (([Pattern.mk []] : List Pattern)).getD
        ((f cidx).1 % ([Pattern.mk []] : List Pattern).length) (Pattern.mk [])
        = Pattern.mk [] := by
      simp [List.length_cons, List.length_nil, Nat.mod_one, List.getD_cons_zero]
    conv_lhs => unfold genRun
    rw [hp]
    have hzero : (Pattern.mk [] : Pattern).rows.length = 0 := rfl
    rw [hzero, Nat.add_zero, if_neg (by omega)]
    exact ih (cidx + 1) i tl hi

/-- Claim C4: for every catalog and draw sequence, the generated timeline is
None on the first INTRO_LEN positions of every lane, None at every position
at or past LEVEL_LEN (no placement ever writes there), and None at every
position at or past the final position counter (everything past the last
placed pattern); the same holds for every terminating run of the unbounded
loop. -/
theorem timeline_generation_invariants (nl : ℕ) (cat : List Pattern)
    (choices : List (ℕ × ℕ × ℕ)) :
    (∀ lane pos, pos < INTRO_LEN →
      (Restart nl cat choices).1 lane pos = BAND_TYPE_NONE) ∧
    (∀ lane pos, LEVEL_LEN ≤ pos →
      (Restart nl cat choices).1 lane pos = BAND_TYPE_NONE) ∧
    (∀ lane pos, (genLoop nl cat choices INTRO_LEN initialTimeline).2 ≤ pos →
      (Restart nl cat choices).1 lane pos = BAND_TYPE_NONE) ∧
    (∀ (f : ℕ → ℕ × ℕ × ℕ) (fuel : ℕ) (tlF : Timeline) (iF : ℕ),
      genRun nl cat f fuel 0 INTRO_LEN initialTimeline = some (tlF, iF) →
      ∀ lane pos, pos < INTRO_LEN ∨ LEVEL_LEN ≤ pos ∨ iF ≤ pos →
        tlF lane pos = BAND_TYPE_NONE) := by
  have hbase : ∀ (cs : List (ℕ × ℕ × ℕ)) lane pos,
      pos < INTRO_LEN ∨ LEVEL_LEN ≤ pos ∨
        (genLoop nl cat cs INTRO_LEN initialTimeline).2 ≤ pos →
      (genLoop nl cat cs INTRO_LEN initialTimeline).1 lane pos = BAND_TYPE_NONE := by
    intro cs lane pos h
    have hfin : (genLoop nl cat cs INTRO_LEN initialTimeline).2 < LEVEL_LEN :=
      genLoop_lt_level nl cat cs INTRO_LEN initialTimeline (by decide)
    have : (genLoop nl cat cs INTRO_LEN initialTimeline).1 lane pos
        = initialTimeline lane pos := by
      apply genLoop_frame
      rcases h with h | h | h
      · exact Or.inl h
      · exact Or.inr (by omega)
      · exact Or.inr h
    rw [this]
    rfl
  refine ⟨fun lane pos h => hbase choices lane pos (Or.inl h),
    fun lane pos h => hbase choices lane pos (Or.inr (Or.inl h)),
    fun lane pos h => hbase choices lane pos (Or.inr (Or.inr h)),
    fun f fuel tlF iF hrun lane pos h => ?_⟩
  obtain ⟨cs, hcs⟩ := genRun_eq_genLoop nl cat f fuel 0 INTRO_LEN initialTimeline (tlF, iF) hrun
  have h1 : (genLoop nl cat cs INTRO_LEN initialTimeline).1 = tlF := by rw [hcs]
  have h2 : (genLoop nl cat cs INTRO_LEN initialTimeline).2 = iF := by rw [hcs]
  rw [← h1]
  apply hbase cs lane pos
  rw [h2]
  exact h

/-- Witness for C4 at a concrete catalog and draw list. -/
theorem timeline_generation_invariants_witness :
    (0 : ℕ) < INTRO_LEN ∧
    (Restart 6 [Pattern.mk ["######"]] [(0, 0, 1)]).1 0 0 = BAND_TYPE_NONE :=
  ⟨by decide, (timeline_generation_invariants 6 [Pattern.mk ["######"]] [(0, 0, 1)]).1 0 0
    (by decide)⟩

/-- A pattern whose 296 rows fit exactly into the LEVEL_LEN - INTRO_LEN
positions that remain after the intro. -/
def exactFitPattern : Pattern := Pattern.mk (List.replicate 296 "######")

/-- Claim C8 counterexample: the pattern of 296 all-wall rows ends precisely
at position LEVEL_LEN (INTRO_LEN + 296 = LEVEL_LEN), yet the loop breaks
without placing it — the generated timeline stays None at position INTRO_LEN
and the position counter stays at INTRO_LEN — because the break condition is
i + rows >= LEVEL_LEN, not strict overflow. -/
theorem exact_fit_pattern_rejected :
    INTRO_LEN + exactFitPattern.rows.length = LEVEL_LEN ∧
    (genLoop 6 [exactFitPattern] [(0, 0, 1)] INTRO_LEN initialTimeline).2 = INTRO_LEN ∧
    (Restart 6 [exactFitPattern] [(0, 0, 1)]).1 0 INTRO_LEN = BAND_TYPE_NONE := by
  have hlen : exactFitPattern.rows.length = 296 := List.length_replicate 296 "######"
  have hget : ([exactFitPattern] : List Pattern).getD
      (0 % ([exactFitPattern] : List Pattern).length) (Pattern.mk []) = exactFitPattern := rfl
  have hcond : LEVEL_LEN ≤ INTRO_LEN +
      (([exactFitPattern] : List Pattern).getD
        (0 % ([exactFitPattern] : List Pattern).length) (Pattern.mk [])).rows.length := by
    rw [hget, hlen]
    decide
  have h2 : genLoop 6 [exactFitPattern] [(0, 0, 1)] INTRO_LEN initialTimeline
      = (initialTimeline, INTRO_LEN) := by
    unfold genLoop
    rw [if_pos hcond]
  refine ⟨by rw [hlen]; decide, by rw [h2], ?_⟩
  show (genLoop 6 [exactFitPattern] [(0, 0, 1)] INTRO_LEN initialTimeline).1 0 INTRO_LEN
      = BAND_TYPE_NONE
  rw [h2]
  rfl

/-- Claim C8 as amended: a chosen pattern is placed iff the position counter
plus its row count is strictly below LEVEL_LEN; when the sum reaches
LEVEL_LEN or more — including the exact-fit case where it equals LEVEL_LEN —
generation stops with the timeline and counter unchanged. -/
theorem placement_stop_condition (nl : ℕ) (cat : List Pattern)
    (r1 r2 r3 : ℕ) (rest : List (ℕ × ℕ × ℕ)) (i : ℕ) (tl : Timeline) :
    (LEVEL_LEN ≤ i + (cat.getD (r1 % cat.length) (Pattern.mk [])).rows.length →
      genLoop nl cat ((r1, r2, r3) :: rest) i tl = (tl, i)) ∧
    (i + (cat.getD (r1 % cat.length) (Pattern.mk [])).rows.length < LEVEL_LEN →
      genLoop nl cat ((r1, r2, r3) :: rest) i tl =
        genLoop nl cat rest
          (i + (cat.getD (r1 % cat.length) (Pattern.mk [])).rows.length)
          (placeRows nl (r2 % nl) (chooseDlane r3)
            (cat.getD (r1 % cat.length) (Pattern.mk [])).rows i tl)) := by
  constructor
  · intro h
    unfold genLoop
    rw [if_pos h]
  · intro h
    conv_lhs => unfold genLoop
    rw [if_neg (by omega)]

/-- Witness for C8's amended statement: the exact-fit catalog stops the
loop, and a one-row pattern well inside the level is placed. -/
theorem placement_stop_condition_witness :
    (LEVEL_LEN ≤ INTRO_LEN +
        (([exactFitPattern] : List Pattern).getD
          (0 % ([exactFitPattern] : List Pattern).length) (Pattern.mk [])).rows.length ∧
      genLoop 6 [exactFitPattern] [(0, 0, 1)] INTRO_LEN initialTimeline
        = (initialTimeline, INTRO_LEN)) ∧
    (INTRO_LEN +
        (([Pattern.mk ["######"]] : List Pattern).getD
          (0 % ([Pattern.mk ["######"]] : List Pattern).length) (Pattern.mk [])).rows.length
        < LEVEL_LEN ∧
      genLoop 6 [Pattern.mk ["######"]] [(0, 0, 1)] INTRO_LEN initialTimeline =
        genLoop 6 [Pattern.mk ["######"]] []
          (INTRO_LEN +
            (([Pattern.mk ["######"]] : List Pattern).getD
              (0 % ([Pattern.mk ["######"]] : List Pattern).length) (Pattern.mk [])).rows.length)
          (placeRows 6 (0 % 6) (chooseDlane 1)
            (([Pattern.mk ["######"]] : List Pattern).getD
              (0 % ([Pattern.mk ["######"]] : List Pattern).length) (Pattern.mk [])).rows
            INTRO_LEN initialTimeline)) := by
  have hget : ([exactFitPattern] : List Pattern).getD
      (0 % ([exactFitPattern] : List Pattern).length) (Pattern.mk []) = exactFitPattern := rfl
  have hbig : LEVEL_LEN ≤ INTRO_LEN +
      (([exactFitPattern] : List Pattern).getD
        (0 % ([exactFitPattern] : List Pattern).length) (Pattern.mk [])).rows.length := by
    have hlen : exactFitPattern.rows.length = 296 := List.length_replicate 296 "######"
    rw [hget, hlen]
    decide
  have hsmall : INTRO_LEN +
      (([Pattern.mk ["######"]] : List Pattern).getD
        (0 % ([Pattern.mk ["######"]] : List Pattern).length) (Pattern.mk [])).rows.length
      < LEVEL_LEN := by decide
  exact ⟨⟨hbig, (placement_stop_condition 6 [exactFitPattern] 0 0 1 [] INTRO_LEN
      initialTimeline).1 hbig⟩,
    ⟨hsmall, (placement_stop_condition 6 [Pattern.mk ["######"]] 0 0 1 [] INTRO_LEN
      initialTimeline).2 hsmall⟩⟩

/-! ### Parser lemmas -/

/-- Every row accepted by the row loop has width equal to the lane count. -/
lemma readRows_ok_widths (nl : ℕ) :
    ∀ (k : ℕ) (toks : List Tok) (rs : List String) (rem : List Tok),
      readRows nl k toks = .ok (rs, rem) → ∀ r ∈ rs, r.length = nl := by
  intro k
  induction k with
  | zero =>
    intro toks rs rem h r hr
    unfold readRows at h
    cases h
    exact absurd hr (List.not_mem_nil r)
  | succ k ih =>
    intro toks rs rem h r hr
    cases toks with
    | nil => exact Except.noConfusion h
    | cons t rest =>
      unfold readRows at h
      dsimp only at h
      by_cases hwidth : (t.asStr).length ≠ nl
      · rw [if_pos hwidth] at h
        exact Except.noConfusion h
      · rw [if_neg hwidth] at h
        cases heq : readRows nl k rest with
        | error e =>
          rw [heq] at h
          exact Except.noConfusion h
        | ok pr =>
          obtain ⟨rs2, rem2⟩ := pr
          rw [heq] at h
          dsimp only at h
          cases h
          rcases List.mem_cons.mp hr with hr1 | hr2
          · rw [hr1]
            omega
          · exact ih rest _ _ heq r hr2

/-- Every pattern accepted by the outer pattern loop has all its rows of
width equal to the lane count, provided the accumulator already does. -/
lemma readLoop_ok_widths (nl : ℕ) :
    ∀ (fuel : ℕ) (toks : List Tok) (acc ps : List Pattern) (rem : List Tok),
      readLoop nl fuel toks acc = .ok (ps, rem) →
      (∀ p ∈ acc, ∀ r ∈ p.rows, r.length = nl) →
      ∀ p ∈ ps, ∀ r ∈ p.rows, r.length = nl := by
  intro fuel
  induction fuel with
  | zero => intro toks acc ps rem h _; exact Except.noConfusion h
  | succ fuel ih =>
    intro toks acc ps rem h hacc
    cases toks with
    | nil => exact Except.noConfusion h
    | cons t rest =>
      cases t with
      | str s => exact Except.noConfusion h
      | int n =>
        unfold readLoop at h
        simp only [Tok.asInt] at h
        by_cases hzero : n = 0
        · rw [if_pos hzero] at h
          cases h
          exact hacc
        · rw [if_neg hzero] at h
          cases heq : readRows nl n.toNat rest with
          | error e =>
            rw [heq] at h
            exact Except.noConfusion h
          | ok pr =>
            obtain ⟨rs, rem2⟩ := pr
            rw [heq] at h
            dsimp only at h
            refine ih rem2 (acc ++ [Pattern.mk rs]) ps rem h ?_
            intro p hp r hr
            rcases List.mem_append.mp hp with hp1 | hp2
            · exact hacc p hp1 r hr
            · rw [List.mem_singleton.mp hp2] at hr
              exact readRows_ok_widths nl n.toNat rest rs rem2 heq r hr

/-- Claim C6: pattern loading fails fatally exactly in these situations — a
missing file, a lane count outside [LANES_MIN, LANES_MAX], a row whose width
differs from the lane count, or the 0 sentinel arriving with no pattern
parsed yet (in particular, a file whose first pattern block is the 0
sentinel); dually, successful loads have an in-bounds lane count, a
non-empty catalog, and every row of every pattern at the lane count's
width. -/
theorem read_patterns_failure_modes :
    (ReadPatterns none = .error .readFailure) ∧
    (∀ (n : ℤ) (rest : List Tok), n < (LANES_MIN : ℤ) ∨ (LANES_MAX : ℤ) < n →
      ReadPatterns (some (Tok.int n :: rest)) = .error .lanesOutOfBounds) ∧
    (∀ n : ℤ, (LANES_MIN : ℤ) ≤ n → n ≤ (LANES_MAX : ℤ) →
      ReadPatterns (some [Tok.int n, Tok.int 0]) = .error .emptyCatalog) ∧
    (∀ (n k : ℤ) (r : Tok) (rest : List Tok), (LANES_MIN : ℤ) ≤ n → n ≤ (LANES_MAX : ℤ) →
      1 ≤ k → (r.asStr).length ≠ n.toNat →
      ReadPatterns (some (Tok.int n :: Tok.int k :: r :: rest)) = .error .rowWidthMismatch) ∧
    (∀ (toks : List Tok) (nl : ℕ) (ps : List Pattern),
      ReadPatterns (some toks) = .ok (nl, ps) →
      LANES_MIN ≤ nl ∧ nl ≤ LANES_MAX ∧ ps ≠ [] ∧
        ∀ p ∈ ps, ∀ r ∈ p.rows, r.length = nl) := by
  refine ⟨rfl, ?_, ?_, ?_, ?_⟩
  · intro n rest h
    unfold ReadPatterns
    simp only [Tok.asInt]
    rw [if_pos h]
  · intro n h1 h2
    unfold ReadPatterns
    simp only [Tok.asInt]
    rw [if_neg (by omega)]
    rfl
  · intro n k r rest h1 h2 hk hw
    have hm : k.toNat = (k.toNat - 1) + 1 := by omega
    have hrr : readRows n.toNat k.toNat (r :: rest) = .error .rowWidthMismatch := by
      rw [hm]
      unfold readRows
      dsimp only
      rw [if_pos hw]
    unfold ReadPatterns
    simp only [Tok.asInt]
    rw [if_neg (by omega)]
    unfold readLoop
    simp only [Tok.asInt]
    rw [if_neg (by omega), hrr]
  · intro toks nl ps h
    cases toks with
    | nil => exact Except.noConfusion h
    | cons t rest =>
      cases t with
      | str s => exact Except.noConfusion h
      | int n =>
        unfold ReadPatterns at h
        simp only [Tok.asInt] at h
        by_cases hbounds : (n < (LANES_MIN : ℤ) ∨ (LANES_MAX : ℤ) < n)
        · rw [if_pos hbounds] at h
          exact Except.noConfusion h
        · rw [if_neg hbounds] at h
          cases heq : readLoop n.toNat (rest.length + 1) rest [] with
          | error e =>
            rw [heq] at h
            exact Except.noConfusion h
          | ok pr =>
            obtain ⟨ps2, rem2⟩ := pr
            rw [heq] at h
            dsimp only at h
            by_cases hemp : ps2 = []
            · rw [if_pos hemp] at h
              exact Except.noConfusion h
            · rw [if_neg hemp] at h
              cases h
              rw [not_or] at hbounds
              obtain ⟨hb1, hb2⟩ := hbounds
              refine ⟨by omega, by omega, hemp, ?_⟩
              exact readLoop_ok_widths n.toNat (rest.length + 1) rest [] _ _ heq
                (fun p hp => absurd hp (List.not_mem_nil p))

/-- Witness for C6: the empty-catalog error on a concrete sentinel-first
file, and the success characterization on a concrete one-pattern file. -/
theorem read_patterns_failure_modes_witness :
    ((LANES_MIN : ℤ) ≤ 6 ∧ (6 : ℤ) ≤ (LANES_MAX : ℤ)) ∧
    ReadPatterns (some [Tok.int 6, Tok.int 0]) = .error .emptyCatalog ∧
    (ReadPatterns (some [Tok.int 6, Tok.int 1, Tok.str "abcdef", Tok.int 0]) =
        .ok (6, [Pattern.mk ["abcdef"]]) ∧
      (LANES_MIN ≤ 6 ∧ 6 ≤ LANES_MAX ∧ ([Pattern.mk ["abcdef"]] : List Pattern) ≠ [] ∧
        ∀ p ∈ ([Pattern.mk ["abcdef"]] : List Pattern), ∀ r ∈ p.rows, r.length = 6)) :=
  ⟨⟨by decide, by decide⟩,
    read_patterns_failure_modes.2.2.1 6 (by decide) (by decide),
    ⟨by rfl,
      read_patterns_failure_modes.2.2.2.2 [Tok.int 6, Tok.int 1, Tok.str "abcdef", Tok.int 0]
        6 [Pattern.mk ["abcdef"]] (by rfl)⟩⟩

/-- Claim C10: the placement loop terminates for every non-empty catalog in
which every pattern has at least one row (LEVEL_LEN + 1 iterations always
reach the break, each placement strictly increasing the counter); the
precondition is needed because the parser accepts a negative row count and
stores a zero-row pattern — witnessed by the concrete parse below — and with
a zero-row catalog the counter never advances, so no amount of fuel reaches
the break. -/
theorem generation_termination :
    (∀ (nl : ℕ) (cat : List Pattern) (f : ℕ → ℕ × ℕ × ℕ) (cidx i : ℕ) (tl : Timeline),
      cat ≠ [] → (∀ p ∈ cat, p.rows ≠ []) →
      (genRun nl cat f (LEVEL_LEN + 1) cidx i tl).isSome = true) ∧
    (∀ (nl : ℕ) (f : ℕ → ℕ × ℕ × ℕ) (fuel cidx i : ℕ) (tl : Timeline),
      i < LEVEL_LEN → genRun nl [Pattern.mk []] f fuel cidx i tl = none) ∧
    ReadPatterns (some [Tok.int 6, Tok.int (-1), Tok.int 1, Tok.str "abcdef", Tok.int 0]) =
      .ok (6, [Pattern.mk [], Pattern.mk ["abcdef"]]) := by
  refine ⟨fun nl cat f cidx i tl hcat hrows =>
      genRun_isSome nl cat f hcat hrows (LEVEL_LEN + 1) cidx i tl (by omega) (by omega),
    fun nl f fuel cidx i tl hi => genRun_empty_rows_none nl f fuel cidx i tl hi, ?_⟩
  rfl

/-- Witness for C10: a concrete one-pattern catalog terminates with fuel
LEVEL_LEN + 1, and a concrete zero-row catalog yields none. -/
theorem generation_termination_witness :
    (([Pattern.mk ["###"]] : List Pattern) ≠ [] ∧
      (∀ p ∈ ([Pattern.mk ["###"]] : List Pattern), p.rows ≠ [])) ∧
    (genRun 3 [Pattern.mk ["###"]] (fun _ => (0, 0, 0)) (LEVEL_LEN + 1) 0 INTRO_LEN
      initialTimeline).isSome = true ∧
    ((4 : ℕ) < LEVEL_LEN ∧
      genRun 3 [Pattern.mk []] (fun _ => (0, 0, 0)) 7 0 4 initialTimeline = none) :=
  ⟨⟨by decide, by decide⟩,
    generation_termination.1 3 [Pattern.mk ["###"]] (fun _ => (0, 0, 0)) 0 INTRO_LEN
      initialTimeline (by decide) (by decide),
    ⟨by decide, generation_termination.2.1 3 (fun _ => (0, 0, 0)) 7 0 4 initialTimeline
      (by decide)⟩⟩

/-- Claim C5: for every canvas pixel, the precomputed lane index equals the
spec's formula ((floor(theta / (pi / nlanes)) + 1) mod 2*nlanes) / 2 with
theta = atan2(dx, dy) + pi and lies in [0, nlanes); and the precomputed band
index is 0 below innerSpread + borderSize and otherwise the floor of
(distance - innerSpread - borderSize) / bandSize, hence never negative.
C doubles are idealized as real numbers. -/
theorem precompute_lane_band_spec (nl : ℕ) (x y : ℕ) (hnl : 0 < nl)
    (hx : x < WIDTH) (hy : y < HEIGHT) :
    laneAt nl (dxAt x) (dyAt y) = laneSpec nl (dxAt x) (dyAt y) ∧
    0 ≤ laneAt nl (dxAt x) (dyAt y) ∧
    laneAt nl (dxAt x) (dyAt y) < (nl : ℤ) ∧
    bandNumAt nl (dxAt x) (dyAt y) = bandNumSpec nl (dxAt x) (dyAt y) ∧
    0 ≤ bandNumAt nl (dxAt x) (dyAt y) := by
  obtain ⟨h1, h2, h3⟩ := laneAt_spec nl hnl (dxAt x) (dyAt y)
  obtain ⟨h4, h5⟩ := bandNumAt_spec nl (dxAt x) (dyAt y)
  exact ⟨h1, h2, h3, h4, h5⟩

/-- Witness for C5 at the top-left pixel of a six-lane session. -/
theorem precompute_lane_band_spec_witness :
    ((0 : ℕ) < 6 ∧ (0 : ℕ) < WIDTH ∧ (0 : ℕ) < HEIGHT) ∧
    (0 ≤ laneAt 6 (dxAt 0) (dyAt 0) ∧ laneAt 6 (dxAt 0) (dyAt 0) < (6 : ℤ)) :=
  ⟨⟨by decide, by decide, by decide⟩,
    ⟨(precompute_lane_band_spec 6 0 0 (by decide) (by decide) (by decide)).2.1,
      (precompute_lane_band_spec 6 0 0 (by decide) (by decide) (by decide)).2.2.1⟩⟩

end DiscreteHexagon
